import Mathlib

/-!
Shallow embedding of the recommendation engine of
`internal/service/recommendationService.go` (package `service`).

Modelling conventions:
* Go `int` is modelled as `Int`.
* Go `float64` arithmetic is modelled as exact rational arithmetic (`ℚ`);
  all constants of the algorithm (0.5, 0.35, 0.15, 0.1, 3.0, 1.5) are
  rational literals.
* A Go `map[int]bool` set is modelled as a duplicate-free `List Int`
  built by successive insertions (`collectSet`); only membership and
  cardinality of these sets are ever used by the algorithm, so the
  iteration-order nondeterminism of Go maps is irrelevant to the
  modelled quantities.
* `sort.Slice` with a strict `>` comparator is modelled by
  `List.insertionSort` with the corresponding non-strict descending
  relation; the Go sort is not stable and ties are left unspecified by
  the source, so any order-respecting sort is a faithful realization.
* The repositories (`InteractionRepository`, `ProductRepository`) are
  modelled by an environment `Env` holding the three event tables and
  the catalog as a partial function `Int → Option Product`; a `none`
  catalog result models the `err != nil` branch of
  `productRepo.GetByID`.
* Go slice truncation `s[:limit]` (which panics for a negative bound)
  is modelled by `truncateGo`, returning `none` exactly when the Go
  code would panic; accordingly the two service entry points return
  `Option` results, with `none` standing for a run-time fault.
* `GeneratedAt` (wall-clock time) is omitted from the response model.
-/

/-- A single interaction event (view, like, or purchase): the fields of
`domain.UserProductView` / `UserProductLike` / `UserProductPurchase`
that the recommendation engine reads. -/
structure Interaction where
  userID : Int
  productID : Int
deriving DecidableEq

/-- The fields of `domain.Product` that the engine reads. -/
structure Product where
  id : Int
  name : String
  categoryID : Option Int
  price : ℚ
deriving DecidableEq

/-- `domain.ProductRecommendation`. -/
structure ProductRecommendation where
  productID : Int
  productName : String
  categoryID : Int
  price : ℚ
  score : ℚ
  reason : String
deriving DecidableEq

/-- `domain.UserSimilarity`. -/
structure UserSimilarity where
  userID : Int
  similarityScore : ℚ
  commonLikes : Nat
  commonViews : Nat
deriving DecidableEq

/-- `domain.RecommendationResponse` (without the wall-clock
`GeneratedAt` field). -/
structure RecommendationResponse where
  userID : Int
  recommendations : List ProductRecommendation
  algorithm : String
deriving DecidableEq

/-- The environment a request runs against: the three event tables
returned by `GetAllUserLikes` / `GetAllUserViews` / `GetAllUserPurchases`
and the product catalog (`productRepo.GetByID`). -/
structure Env where
  allLikes : List Interaction
  allViews : List Interaction
  allPurchases : List Interaction
  catalog : Int → Option Product

/-- Insert into a duplicate-free list: the model of `set[x] = true` on a
Go `map[int]bool`. -/
def pushUnique (xs : List Int) (x : Int) : List Int :=
  if x ∈ xs then xs else xs ++ [x]

/-- Collect a list of ids into a duplicate-free list (a Go map built by
successive insertions). -/
def collectSet (l : List Int) : List Int :=
  l.foldl pushUnique []

/-- The set (duplicate-free list) of product ids a user interacted with
in one event table: the `userLikedProducts` / `otherUsersLikes[uid]`
(etc.) maps built by the loops over the event slices. -/
def productsOf (events : List Interaction) (uid : Int) : List Int :=
  collectSet ((events.filter fun e => decide (e.userID = uid)).map fun e => e.productID)

/-- `commonPurchases` / `commonLikes` / `commonViews`: the loop counting
how many products of the target set also belong to the other user's
set. -/
def commonCount (target other : List Int) : Nat :=
  (target.filter fun p => decide (p ∈ other)).length

/-- One per-type Jaccard computation of `GetSimilarUsers`:
`union := len(target) + len(other) - common`, and `common / union`
guarded by `union > 0`. -/
def jaccardList (target other : List Int) : ℚ :=
  let common := commonCount target other
  let union := target.length + other.length - common
  if 0 < union then (common : ℚ) / (union : ℚ) else 0

/-- The combined weighted similarity of `GetSimilarUsers`:
`purchaseSimilarity*0.5 + likeSimilarity*0.35 + viewSimilarity*0.15`. -/
def combinedSimilarity (env : Env) (userID otherID : Int) : ℚ :=
  jaccardList (productsOf env.allPurchases userID) (productsOf env.allPurchases otherID) * 0.5
    + jaccardList (productsOf env.allLikes userID) (productsOf env.allLikes otherID) * 0.35
    + jaccardList (productsOf env.allViews userID) (productsOf env.allViews otherID) * 0.15

/-- One iteration of the `for otherUserID := range allUserIDs` loop of
`GetSimilarUsers`: `none` models the two `continue` branches (no common
interaction at all, or combined score below the 0.1 threshold). -/
def computeSimilarity (env : Env) (userID otherID : Int) : Option UserSimilarity :=
  let commonPurchases :=
    commonCount (productsOf env.allPurchases userID) (productsOf env.allPurchases otherID)
  let commonLikes :=
    commonCount (productsOf env.allLikes userID) (productsOf env.allLikes otherID)
  let commonViews :=
    commonCount (productsOf env.allViews userID) (productsOf env.allViews otherID)
  if commonLikes = 0 ∧ commonViews = 0 ∧ commonPurchases = 0 then none
  else
    let similarity := combinedSimilarity env userID otherID
    if similarity < 0.1 then none
    else some ⟨otherID, similarity, commonLikes, commonViews⟩

/-- The key set of `allUserIDs`: every user id occurring in any event
table, except the target user (the target's events go to the `user*`
sets, never to the `otherUsers*` maps). -/
def otherUserIDs (env : Env) (userID : Int) : List Int :=
  collectSet (((env.allLikes ++ env.allViews ++ env.allPurchases).map fun e => e.userID).filter
    fun u => decide (u ≠ userID))

/-- Go slice truncation `if len(s) > limit { s = s[:limit] }`:
`none` models the slice-bounds panic raised when `limit` is negative
(and `len(s) > limit` holds, which for a negative `limit` is always the
case). -/
def truncateGo {α : Type} (xs : List α) (limit : Int) : Option (List α) :=
  if (xs.length : Int) > limit then
    if limit < 0 then none else some (xs.take limit.toNat)
  else some xs

/-- Descending sort by a key: the model of
`sort.Slice(s, func(i, j) { return key(s[i]) > key(s[j]) })`. -/
def sortByDesc {α β : Type} [LinearOrder β] (key : α → β) (l : List α) : List α :=
  List.insertionSort (fun a b => key b ≤ key a) l

/-- `GetSimilarUsers`: compute a similarity for every other user, sort
descending by score, truncate to `limit`. `none` models a slice panic
in the truncation step. -/
def GetSimilarUsers (env : Env) (userID : Int) (limit : Int) : Option (List UserSimilarity) :=
  let similarities := (otherUserIDs env userID).filterMap fun ou => computeSimilarity env userID ou
  truncateGo (sortByDesc (fun s => s.similarityScore) similarities) limit

/-- Association-list lookup keyed by product id (a Go `map[int]V`
read). -/
def alookup {α : Type} : List (Int × α) → Int → Option α
  | [], _ => none
  | (k, v) :: rest, pid => if k = pid then some v else alookup rest pid

/-- `productScores[pid] += delta` on an association list: update in
place when present, append a fresh entry otherwise. -/
def bumpScore : List (Int × ℚ) → Int → ℚ → List (Int × ℚ)
  | [], pid, delta => [(pid, delta)]
  | (k, v) :: rest, pid, delta =>
    if k = pid then (k, v + delta) :: rest else (k, v) :: bumpScore rest pid delta

/-- The mutable state of the aggregation phase of `GetRecommendations`:
the `productScores` and `productDetails` maps. -/
structure AggState where
  productScores : List (Int × ℚ)
  productDetails : List (Int × Product)

/-- The body shared by the two aggregation loops of `GetRecommendations`
for one event of the current similar user: skip excluded products, fetch
and cache the product (silently dropping the event when the catalog
lookup fails), and add `similarityScore * weight` to the product's
running score. -/
def scoreEvent (env : Env) (skip : Int → Bool) (weight simScore : ℚ)
    (st : AggState) (productID : Int) : AggState :=
  if skip productID then st
  else
    match alookup st.productDetails productID with
    | some _ =>
      { st with productScores := bumpScore st.productScores productID (simScore * weight) }
    | none =>
      match env.catalog productID with
      | none => st
      | some product =>
        { productScores := bumpScore st.productScores productID (simScore * weight)
          productDetails := st.productDetails ++ [(productID, product)] }

/-- One aggregation pass of `GetRecommendations`: for every similar user
(in list order) and every event of that user, run `scoreEvent`. The
purchase pass uses `weight = 3.0` and skips products the target already
purchased; the like pass uses `weight = 1.5` and skips products the
target already liked or purchased. -/
def aggregatePass (env : Env) (events : List Interaction) (skip : Int → Bool) (weight : ℚ)
    (simUsers : List UserSimilarity) (st : AggState) : AggState :=
  simUsers.foldl
    (fun st simUser =>
      events.foldl
        (fun st ev =>
          if ev.userID = simUser.userID then
            scoreEvent env skip weight simUser.similarityScore st ev.productID
          else st)
        st)
    st

/-- The conversion loop `for productID, score := range productScores`:
build a `ProductRecommendation` for every scored product whose details
were cached, with `categoryID` defaulting to 0. -/
def toRecommendations (st : AggState) : List ProductRecommendation :=
  st.productScores.filterMap fun ps =>
    (alookup st.productDetails ps.1).map fun product =>
      { productID := ps.1
        productName := product.name
        categoryID := product.categoryID.getD 0
        price := product.price
        score := ps.2
        reason := "Users with similar interests liked this" }

/-- The aggregation state after the two scoring loops of
`GetRecommendations`: the purchase pass (weight 3.0, skipping products
the target already purchased) followed by the like pass (weight 1.5,
skipping products the target already liked or purchased). -/
def aggState (env : Env) (userID : Int) (similarUsers : List UserSimilarity) : AggState :=
  aggregatePass env env.allLikes
    (fun pid => decide (pid ∈ productsOf env.allLikes userID)
      || decide (pid ∈ productsOf env.allPurchases userID))
    1.5 similarUsers
    (aggregatePass env env.allPurchases
      (fun pid => decide (pid ∈ productsOf env.allPurchases userID)) 3.0 similarUsers ⟨[], []⟩)

/-- `likeCounts[productID]++` of `getPopularProducts`. -/
def bumpCount : List (Int × Nat) → Int → List (Int × Nat)
  | [], pid => [(pid, 1)]
  | (k, c) :: rest, pid =>
    if k = pid then (k, c + 1) :: rest else (k, c) :: bumpCount rest pid

/-- The per-product like counters of `getPopularProducts`. -/
def likeCounts (env : Env) : List (Int × Nat) :=
  env.allLikes.foldl (fun m like => bumpCount m like.productID) []

/-- The sorted-and-truncated `productCounts` slice of
`getPopularProducts`. -/
def popularSelection (env : Env) (limit : Int) : Option (List (Int × Nat)) :=
  truncateGo (sortByDesc (fun pc => pc.2) (likeCounts env)) limit

/-- `maxCount := 1; if len(productCounts) > 0 { maxCount =
productCounts[0].count }`. -/
def selMax : List (Int × Nat) → Nat
  | [] => 1
  | pc :: _ => pc.2

/-- `getPopularProducts`: rank products by global like count, truncate,
normalize scores by the count of the first (most-liked) selected
product, and build the response (skipping products missing from the
catalog), tagged `popularity_based` with `UserID` 0. -/
def getPopularProducts (env : Env) (limit : Int) : Option RecommendationResponse :=
  match popularSelection env limit with
  | none => none
  | some productCounts =>
    let maxCount := selMax productCounts
    some
      { userID := 0
        recommendations :=
          productCounts.filterMap fun pc =>
            (env.catalog pc.1).map fun product =>
              { productID := pc.1
                productName := product.name
                categoryID := product.categoryID.getD 0
                price := product.price
                score := (pc.2 : ℚ) / (maxCount : ℚ)
                reason := "Popular choice - " ++ toString pc.2 ++ " users liked this" }
        algorithm := "popularity_based" }

/-- `if limit <= 0 || limit > 50 { limit = 10 }`. -/
def clampLimit (limit : Int) : Int :=
  if limit ≤ 0 ∨ 50 < limit then 10 else limit

/-- `GetRecommendations`: clamp the limit, fall back to popularity when
the target has no interactions or no similar users, otherwise run the
purchase pass (weight 3.0) and the like pass (weight 1.5) over the top
10 similar users, sort by score descending, truncate, and fall back to
popularity when nothing was scored. `none` models a run-time fault
(slice panic). -/
def GetRecommendations (env : Env) (userID : Int) (limit0 : Int) : Option RecommendationResponse :=
  let limit := clampLimit limit0
  let userLikedProducts := productsOf env.allLikes userID
  let userViewedProducts := productsOf env.allViews userID
  let userPurchasedProducts := productsOf env.allPurchases userID
  if userLikedProducts = [] ∧ userViewedProducts = [] ∧ userPurchasedProducts = [] then
    getPopularProducts env limit
  else
    match GetSimilarUsers env userID 10 with
    | none => none
    | some similarUsers =>
      if similarUsers = [] then getPopularProducts env limit
      else
        let recommendations :=
          sortByDesc (fun r => r.score) (toRecommendations (aggState env userID similarUsers))
        match truncateGo recommendations limit with
        | none => none
        | some recommendations =>
          if recommendations = [] then getPopularProducts env limit
          else some { userID := userID, recommendations := recommendations
                      algorithm := "collaborative_filtering" }

/-! ### Set-building lemmas -/

theorem mem_pushUnique {xs : List Int} {x a : Int} : a ∈ pushUnique xs x ↔ a ∈ xs ∨ a = x := by
  unfold pushUnique
  by_cases h : x ∈ xs
  · simp only [if_pos h]
    constructor
    · exact Or.inl
    · rintro (ha | rfl)
      · exact ha
      · exact h
  · simp [if_neg h]

theorem nodup_pushUnique {xs : List Int} {x : Int} (h : xs.Nodup) : (pushUnique xs x).Nodup := by
  unfold pushUnique
  by_cases hx : x ∈ xs
  · simpa [if_pos hx] using h
  · simp [if_neg hx, List.nodup_append, h, hx]

theorem mem_foldl_pushUnique (l : List Int) :
    ∀ (xs : List Int) (a : Int), a ∈ l.foldl pushUnique xs ↔ a ∈ xs ∨ a ∈ l := by
  induction l with
  | nil => simp
  | cons x l ih =>
    intro xs a
    rw [List.foldl_cons, ih, mem_pushUnique, List.mem_cons]
    tauto

theorem nodup_foldl_pushUnique (l : List Int) :
    ∀ xs : List Int, xs.Nodup → (l.foldl pushUnique xs).Nodup := by
  induction l with
  | nil => intro xs h; simpa
  | cons x l ih => intro xs h; exact ih _ (nodup_pushUnique h)

theorem mem_collectSet {l : List Int} {a : Int} : a ∈ collectSet l ↔ a ∈ l := by
  unfold collectSet
  rw [mem_foldl_pushUnique]
  simp

theorem nodup_collectSet (l : List Int) : (collectSet l).Nodup :=
  nodup_foldl_pushUnique l [] List.nodup_nil

theorem mem_productsOf {events : List Interaction} {uid p : Int} :
    p ∈ productsOf events uid ↔ ∃ e ∈ events, e.userID = uid ∧ e.productID = p := by
  unfold productsOf
  rw [mem_collectSet]
  simp only [List.mem_map, List.mem_filter, decide_eq_true_eq]
  constructor
  · rintro ⟨e, ⟨he, hu⟩, hp⟩
    exact ⟨e, he, hu, hp⟩
  · rintro ⟨e, he, hu, hp⟩
    exact ⟨e, ⟨he, hu⟩, hp⟩

theorem nodup_productsOf (events : List Interaction) (uid : Int) :
    (productsOf events uid).Nodup :=
  nodup_collectSet _

/-! ### Sorting and truncation lemmas -/

theorem sortByDesc_mem {α β : Type} [LinearOrder β] (key : α → β) (l : List α) (a : α) :
    a ∈ sortByDesc key l ↔ a ∈ l :=
  List.mem_insertionSort _

theorem sortByDesc_length {α β : Type} [LinearOrder β] (key : α → β) (l : List α) :
    (sortByDesc key l).length = l.length :=
  List.length_insertionSort _ _

theorem sortByDesc_pairwise {α β : Type} [LinearOrder β] (key : α → β) (l : List α) :
    (sortByDesc key l).Pairwise fun a b => key b ≤ key a := by
  haveI : IsTotal α fun a b => key b ≤ key a := ⟨fun a b => le_total (key b) (key a)⟩
  haveI : IsTrans α fun a b => key b ≤ key a := ⟨fun a b c h1 h2 => le_trans h2 h1⟩
  exact List.sorted_insertionSort _ l

theorem truncateGo_total {α : Type} (xs : List α) {limit : Int} (h : 0 ≤ limit) :
    ∃ ys, truncateGo xs limit = some ys := by
  unfold truncateGo
  split
  · rw [if_neg (by omega)]
    exact ⟨_, rfl⟩
  · exact ⟨_, rfl⟩

theorem truncateGo_sublist {α : Type} {xs ys : List α} {limit : Int}
    (h : truncateGo xs limit = some ys) : ys.Sublist xs := by
  unfold truncateGo at h
  split at h
  · split at h
    · exact absurd h (by simp)
    · cases h
      exact List.take_sublist _ _
  · cases h
    exact List.Sublist.refl _

theorem truncateGo_mem {α : Type} {xs ys : List α} {limit : Int}
    (h : truncateGo xs limit = some ys) : ∀ a ∈ ys, a ∈ xs :=
  fun _ ha => (truncateGo_sublist h).mem ha

theorem truncateGo_length {α : Type} {xs ys : List α} {limit : Int} (h0 : 0 ≤ limit)
    (h : truncateGo xs limit = some ys) : ys.length ≤ limit.toNat := by
  unfold truncateGo at h
  split at h
  · split at h
    · exact absurd h (by simp)
    · cases h
      simp
  · cases h
    omega

theorem truncateGo_pairwise {α : Type} {R : α → α → Prop} {xs ys : List α} {limit : Int}
    (hp : xs.Pairwise R) (h : truncateGo xs limit = some ys) : ys.Pairwise R :=
  hp.sublist (truncateGo_sublist h)

theorem truncateGo_cons {α : Type} {x : α} {xs ys : List α} {limit : Int} (h1 : 1 ≤ limit)
    (h : truncateGo (x :: xs) limit = some ys) : ∃ t, ys = x :: t := by
  unfold truncateGo at h
  split at h
  · rw [if_neg (by omega)] at h
    cases h
    obtain ⟨n, hn⟩ : ∃ n, limit.toNat = n + 1 := ⟨limit.toNat - 1, by omega⟩
    rw [hn, List.take_succ_cons]
    exact ⟨_, rfl⟩
  · cases h
    exact ⟨xs, rfl⟩

theorem truncateGo_nil {α : Type} {limit : Int} (h : 0 ≤ limit) :
    truncateGo ([] : List α) limit = some [] := by
  unfold truncateGo
  rw [if_neg (by simp; omega)]

theorem truncateGo_neg {α : Type} {xs : List α} {limit : Int} (hl : limit < 0) (hx : xs ≠ []) :
    truncateGo xs limit = none := by
  unfold truncateGo
  have hlen : 0 < xs.length := List.length_pos.mpr hx
  rw [if_pos (by omega), if_pos hl]

theorem truncateGo_zero {α : Type} (xs : List α) : truncateGo xs 0 = some [] := by
  unfold truncateGo
  split
  · rw [if_neg (by omega)]
    simp
  · have : xs.length = 0 := by omega
    rw [List.length_eq_zero.mp this]

/-! ### The specification-side similarity formula (for the refinement
claim about `GetSimilarUsers` scores) -/

/-- Modelled from the spec's words: the set of product ids a user
interacted with in one event table, as a finite set. -/
def specInteractionSet (events : List Interaction) (uid : Int) : Finset Int :=
  ((events.filter fun e => decide (e.userID = uid)).map fun e => e.productID).toFinset

/-- Modelled from the spec's words: the Jaccard index
`|intersection| / |union|`, 0 when the union is empty. -/
def specJaccard (a b : Finset Int) : ℚ :=
  if a ∪ b = ∅ then 0 else ((a ∩ b).card : ℚ) / ((a ∪ b).card : ℚ)

/-- Modelled from the spec's words: the combined similarity
`purchaseJaccard*0.50 + likeJaccard*0.35 + viewJaccard*0.15`. -/
def specSimilarity (env : Env) (u o : Int) : ℚ :=
  specJaccard (specInteractionSet env.allPurchases u) (specInteractionSet env.allPurchases o) * 0.5
    + specJaccard (specInteractionSet env.allLikes u) (specInteractionSet env.allLikes o) * 0.35
    + specJaccard (specInteractionSet env.allViews u) (specInteractionSet env.allViews o) * 0.15

theorem toFinset_productsOf (events : List Interaction) (uid : Int) :
    (productsOf events uid).toFinset = specInteractionSet events uid := by
  ext p
  unfold productsOf specInteractionSet
  rw [List.mem_toFinset, mem_collectSet, List.mem_toFinset]

theorem commonCount_eq_card_inter {A B : List Int} (hA : A.Nodup) :
    commonCount A B = (A.toFinset ∩ B.toFinset).card := by
  unfold commonCount
  have h1 : (A.filter fun p => decide (p ∈ B)).Nodup := hA.filter _
  rw [← List.toFinset_card_of_nodup h1]
  congr 1
  ext p
  simp [List.mem_filter]

theorem length_eq_card_toFinset {A : List Int} (hA : A.Nodup) : A.length = A.toFinset.card :=
  (List.toFinset_card_of_nodup hA).symm

theorem jaccardList_eq_specJaccard {A B : List Int} (hA : A.Nodup) (hB : B.Nodup) :
    jaccardList A B = specJaccard A.toFinset B.toFinset := by
  unfold jaccardList specJaccard
  rw [commonCount_eq_card_inter hA, length_eq_card_toFinset hA, length_eq_card_toFinset hB]
  have hcard : A.toFinset.card + B.toFinset.card - (A.toFinset ∩ B.toFinset).card
      = (A.toFinset ∪ B.toFinset).card := by
    have h := Finset.card_union_add_card_inter A.toFinset B.toFinset
    omega
  simp only [hcard]
  by_cases h : A.toFinset ∪ B.toFinset = ∅
  · simp [h]
  · have hpos : 0 < (A.toFinset ∪ B.toFinset).card :=
      Finset.card_pos.mpr (Finset.nonempty_iff_ne_empty.mpr h)
    rw [if_pos hpos, if_neg h]

theorem combinedSimilarity_eq_spec (env : Env) (u o : Int) :
    combinedSimilarity env u o = specSimilarity env u o := by
  unfold combinedSimilarity specSimilarity
  rw [jaccardList_eq_specJaccard (nodup_productsOf _ _) (nodup_productsOf _ _),
    jaccardList_eq_specJaccard (nodup_productsOf _ _) (nodup_productsOf _ _),
    jaccardList_eq_specJaccard (nodup_productsOf _ _) (nodup_productsOf _ _),
    toFinset_productsOf, toFinset_productsOf, toFinset_productsOf,
    toFinset_productsOf, toFinset_productsOf, toFinset_productsOf]

theorem specJaccard_nonneg (a b : Finset Int) : 0 ≤ specJaccard a b := by
  unfold specJaccard
  split
  · exact le_refl 0
  · positivity

theorem specJaccard_le_one (a b : Finset Int) : specJaccard a b ≤ 1 := by
  unfold specJaccard
  split
  · norm_num
  · apply div_le_one_of_le₀
    · exact_mod_cast Finset.card_le_card Finset.inter_subset_union
    · positivity

theorem combinedSimilarity_nonneg (env : Env) (u o : Int) :
    0 ≤ combinedSimilarity env u o := by
  rw [combinedSimilarity_eq_spec]
  unfold specSimilarity
  have h1 := specJaccard_nonneg (specInteractionSet env.allPurchases u)
    (specInteractionSet env.allPurchases o)
  have h2 := specJaccard_nonneg (specInteractionSet env.allLikes u)
    (specInteractionSet env.allLikes o)
  have h3 := specJaccard_nonneg (specInteractionSet env.allViews u)
    (specInteractionSet env.allViews o)
  nlinarith

theorem combinedSimilarity_le_one (env : Env) (u o : Int) :
    combinedSimilarity env u o ≤ 1 := by
  rw [combinedSimilarity_eq_spec]
  unfold specSimilarity
  have h1 := specJaccard_le_one (specInteractionSet env.allPurchases u)
    (specInteractionSet env.allPurchases o)
  have h2 := specJaccard_le_one (specInteractionSet env.allLikes u)
    (specInteractionSet env.allLikes o)
  have h1n := specJaccard_nonneg (specInteractionSet env.allPurchases u)
    (specInteractionSet env.allPurchases o)
  have h2n := specJaccard_nonneg (specInteractionSet env.allLikes u)
    (specInteractionSet env.allLikes o)
  have h3 := specJaccard_le_one (specInteractionSet env.allViews u)
    (specInteractionSet env.allViews o)
  have h3n := specJaccard_nonneg (specInteractionSet env.allViews u)
    (specInteractionSet env.allViews o)
  nlinarith

/-! ### Extraction lemmas for `computeSimilarity` and `GetSimilarUsers` -/

theorem specJaccard_self {a : Finset Int} (h : a ≠ ∅) : specJaccard a a = 1 := by
  unfold specJaccard
  rw [Finset.union_self, if_neg h, Finset.inter_self]
  have : 0 < a.card := Finset.card_pos.mpr (Finset.nonempty_iff_ne_empty.mpr h)
  rw [div_self (by exact_mod_cast this.ne')]

theorem computeSimilarity_some {env : Env} {u o : Int} {s : UserSimilarity}
    (h : computeSimilarity env u o = some s) :
    s.userID = o ∧ s.similarityScore = combinedSimilarity env u o ∧
      ¬ s.similarityScore < 0.1 := by
  unfold computeSimilarity at h
  simp only [] at h
  split at h
  · cases h
  · split at h
    · cases h
    · injection h with h
      subst h
      refine ⟨rfl, rfl, ?_⟩
      assumption

theorem computeSimilarity_none_of_disjoint {env : Env} {u o : Int}
    (hp : commonCount (productsOf env.allPurchases u) (productsOf env.allPurchases o) = 0)
    (hl : commonCount (productsOf env.allLikes u) (productsOf env.allLikes o) = 0)
    (hv : commonCount (productsOf env.allViews u) (productsOf env.allViews o) = 0) :
    computeSimilarity env u o = none := by
  unfold computeSimilarity
  simp only []
  rw [if_pos ⟨hl, hv, hp⟩]

theorem getSimilarUsers_mem {env : Env} {u l : Int} {sims : List UserSimilarity}
    {s : UserSimilarity} (h : GetSimilarUsers env u l = some sims) (hs : s ∈ sims) :
    ∃ ou ∈ otherUserIDs env u, computeSimilarity env u ou = some s := by
  unfold GetSimilarUsers at h
  have hmem : s ∈ sortByDesc (fun s => s.similarityScore)
      ((otherUserIDs env u).filterMap fun ou => computeSimilarity env u ou) :=
    truncateGo_mem h s hs
  rw [sortByDesc_mem] at hmem
  exact List.mem_filterMap.mp hmem

theorem jaccardList_eq_zero {A B : List Int} (h : commonCount A B = 0) : jaccardList A B = 0 := by
  unfold jaccardList
  simp only [h]
  split <;> simp

/-- C1: every similarity score in a `GetSimilarUsers` result equals the
specification formula `purchaseJaccard*0.50 + likeJaccard*0.35 +
viewJaccard*0.15` (per-type Jaccard `|intersection|/|union|`, 0 when the
union is empty), hence lies in `[0, 1]`; and a user whose three
interaction sets are identical to the target's, with all three sets
non-empty, gets combined score exactly 1. -/
theorem claim1_similarity_formula_and_bounds :
    (∀ (env : Env) (u l : Int) (sims : List UserSimilarity),
      GetSimilarUsers env u l = some sims →
      ∀ s ∈ sims, s.similarityScore = specSimilarity env u s.userID ∧
        0 ≤ s.similarityScore ∧ s.similarityScore ≤ 1) ∧
    (∀ (env : Env) (u o : Int),
      specInteractionSet env.allPurchases u = specInteractionSet env.allPurchases o →
      specInteractionSet env.allLikes u = specInteractionSet env.allLikes o →
      specInteractionSet env.allViews u = specInteractionSet env.allViews o →
      specInteractionSet env.allPurchases u ≠ ∅ →
      specInteractionSet env.allLikes u ≠ ∅ →
      specInteractionSet env.allViews u ≠ ∅ →
      combinedSimilarity env u o = 1) := by
  constructor
  · intro env u l sims h s hs
    obtain ⟨ou, _, ho⟩ := getSimilarUsers_mem h hs
    obtain ⟨huid, hscore, _⟩ := computeSimilarity_some ho
    refine ⟨?_, ?_, ?_⟩
    · rw [hscore, huid, combinedSimilarity_eq_spec]
    · rw [hscore]
      exact combinedSimilarity_nonneg env u ou
    · rw [hscore]
      exact combinedSimilarity_le_one env u ou
  · intro env u o hp hl hv hpne hlne hvne
    rw [combinedSimilarity_eq_spec]
    unfold specSimilarity
    rw [← hp, ← hl, ← hv, specJaccard_self hpne, specJaccard_self hlne, specJaccard_self hvne]
    norm_num

/-- Witness environment for C1: users 1 and 2 have identical, non-empty
like, view and purchase sets. -/
def envW1 : Env :=
  { allLikes := [⟨1, 5⟩, ⟨2, 5⟩]
    allViews := [⟨1, 6⟩, ⟨2, 6⟩]
    allPurchases := [⟨1, 7⟩, ⟨2, 7⟩]
    catalog := fun _ => none }

theorem claim1_witness :
    GetSimilarUsers envW1 1 10 = some [⟨2, 1, 1, 1⟩] ∧
    (⟨2, 1, 1, 1⟩ : UserSimilarity).similarityScore = specSimilarity envW1 1 2 ∧
    combinedSimilarity envW1 1 2 = 1 := by
  have h1 : otherUserIDs envW1 1 = [2] := by decide
  have h2 : computeSimilarity envW1 1 2 = some ⟨2, 1, 1, 1⟩ := by
    unfold computeSimilarity combinedSimilarity
    norm_num [productsOf, collectSet, pushUnique, commonCount, jaccardList, envW1]
  have hgs : GetSimilarUsers envW1 1 10 = some [⟨2, 1, 1, 1⟩] := by
    unfold GetSimilarUsers
    rw [h1]
    simp only [List.filterMap_cons, List.filterMap_nil, h2]
    rfl
  refine ⟨hgs, ?_, ?_⟩
  · exact (claim1_similarity_formula_and_bounds.1 envW1 1 10 _ hgs ⟨2, 1, 1, 1⟩
      (List.mem_singleton_self _)).1
  · exact claim1_similarity_formula_and_bounds.2 envW1 1 2 (by decide) (by decide) (by decide)
      (by decide) (by decide) (by decide)

/-- C4: a user whose combined weighted-Jaccard similarity with the
target is strictly below the threshold 0.1 never appears in the
`GetSimilarUsers` result. -/
theorem claim4_threshold_cutoff (env : Env) (u o l : Int) (sims : List UserSimilarity)
    (hlow : combinedSimilarity env u o < 0.1)
    (h : GetSimilarUsers env u l = some sims) :
    ∀ s ∈ sims, s.userID ≠ o := by
  intro s hs heq
  obtain ⟨ou, _, ho⟩ := getSimilarUsers_mem h hs
  obtain ⟨huid, hscore, hge⟩ := computeSimilarity_some ho
  apply hge
  rw [heq] at huid
  rw [hscore, ← huid]
  exact hlow

/-- Witness environment for C4: user 3 shares one of the target's two
views (combined score 0.075 < 0.1) and user 4 shares the target's only
purchase (combined score 0.5). -/
def envW4 : Env :=
  { allLikes := []
    allViews := [⟨1, 10⟩, ⟨1, 11⟩, ⟨3, 10⟩]
    allPurchases := [⟨1, 20⟩, ⟨4, 20⟩]
    catalog := fun _ => none }

theorem claim4_witness :
    combinedSimilarity envW4 1 3 < 0.1 ∧
    GetSimilarUsers envW4 1 10 = some [⟨4, 1/2, 0, 0⟩] ∧
    (⟨4, 1/2, 0, 0⟩ : UserSimilarity).userID ≠ 3 := by
  have hlow : combinedSimilarity envW4 1 3 < 0.1 := by
    unfold combinedSimilarity
    norm_num [productsOf, collectSet, pushUnique, commonCount, jaccardList, envW4]
  have h1 : otherUserIDs envW4 1 = [3, 4] := by decide
  have h3 : computeSimilarity envW4 1 3 = none := by
    unfold computeSimilarity combinedSimilarity
    norm_num [productsOf, collectSet, pushUnique, commonCount, jaccardList, envW4]
  have h4 : computeSimilarity envW4 1 4 = some ⟨4, 1/2, 0, 0⟩ := by
    unfold computeSimilarity combinedSimilarity
    norm_num [productsOf, collectSet, pushUnique, commonCount, jaccardList, envW4]
  have hgs : GetSimilarUsers envW4 1 10 = some [⟨4, 1/2, 0, 0⟩] := by
    unfold GetSimilarUsers
    rw [h1]
    simp only [List.filterMap_cons, List.filterMap_nil, h3, h4]
    rfl
  exact ⟨hlow, hgs,
    claim4_threshold_cutoff envW4 1 3 10 _ hlow hgs ⟨4, 1/2, 0, 0⟩ (List.mem_singleton_self _)⟩

/-- Two users share no product id in any of the three interaction
types (pairwise disjoint per-type product sets). -/
def sharesNoProducts (env : Env) (u o : Int) : Prop :=
  commonCount (productsOf env.allPurchases u) (productsOf env.allPurchases o) = 0 ∧
  commonCount (productsOf env.allLikes u) (productsOf env.allLikes o) = 0 ∧
  commonCount (productsOf env.allViews u) (productsOf env.allViews o) = 0

/-- C5: users sharing no product across all three interaction types have
combined weighted-Jaccard similarity 0 (regardless of how many
interactions each has independently) and never appear in each other's
`GetSimilarUsers` output; when no other user shares any product with the
target, `GetSimilarUsers` returns an empty list. -/
theorem claim5_disjoint_users :
    (∀ (env : Env) (u o : Int), sharesNoProducts env u o →
      combinedSimilarity env u o = 0 ∧
      ∀ (l : Int) (sims : List UserSimilarity), GetSimilarUsers env u l = some sims →
        ∀ s ∈ sims, s.userID ≠ o) ∧
    (∀ (env : Env) (u l : Int), 0 ≤ l →
      (∀ o ∈ otherUserIDs env u, sharesNoProducts env u o) →
      GetSimilarUsers env u l = some []) := by
  constructor
  · intro env u o ⟨hp, hl, hv⟩
    constructor
    · unfold combinedSimilarity
      rw [jaccardList_eq_zero hp, jaccardList_eq_zero hl, jaccardList_eq_zero hv]
      norm_num
    · intro l sims h s hs heq
      obtain ⟨ou, _, ho⟩ := getSimilarUsers_mem h hs
      obtain ⟨huid, _, _⟩ := computeSimilarity_some ho
      rw [heq] at huid
      rw [← huid] at ho
      rw [computeSimilarity_none_of_disjoint hp hl hv] at ho
      cases ho
  · intro env u l hl hall
    unfold GetSimilarUsers
    have hfm : ((otherUserIDs env u).filterMap fun ou => computeSimilarity env u ou) = [] := by
      rw [List.filterMap_eq_nil_iff]
      intro ou hou
      obtain ⟨h1, h2, h3⟩ := hall ou hou
      exact computeSimilarity_none_of_disjoint h1 h2 h3
    simp only [hfm]
    exact truncateGo_nil hl

/-- Witness environment for C5: users 1 and 2 each have one like, of
different products. -/
def envW5 : Env :=
  { allLikes := [⟨1, 1⟩, ⟨2, 2⟩]
    allViews := []
    allPurchases := []
    catalog := fun _ => none }

theorem claim5_witness :
    combinedSimilarity envW5 1 2 = 0 ∧ GetSimilarUsers envW5 1 10 = some [] := by
  have hshare : sharesNoProducts envW5 1 2 := ⟨by decide, by decide, by decide⟩
  refine ⟨(claim5_disjoint_users.1 envW5 1 2 hshare).1,
    claim5_disjoint_users.2 envW5 1 10 (by norm_num) ?_⟩
  intro o ho
  have h2 : otherUserIDs envW5 1 = [2] := by decide
  rw [h2, List.mem_singleton] at ho
  rw [ho]
  exact hshare

/-- C10: `GetSimilarUsers` neither clamps nor defaults its limit: with
limit 0 it returns an empty list even when a qualifying similar user
exists, and with any strictly negative limit the truncation step
faults (slice panic, modelled as `none`) whenever a qualifying similar
user exists. -/
theorem claim10_no_limit_clamping (env : Env) (u : Int)
    (hne : ((otherUserIDs env u).filterMap fun ou => computeSimilarity env u ou) ≠ []) :
    GetSimilarUsers env u 0 = some [] ∧
    ∀ l : Int, l < 0 → GetSimilarUsers env u l = none := by
  constructor
  · unfold GetSimilarUsers
    exact truncateGo_zero _
  · intro l hl
    unfold GetSimilarUsers
    apply truncateGo_neg hl
    intro hsort
    apply hne
    have hlen := sortByDesc_length (fun s : UserSimilarity => s.similarityScore)
      ((otherUserIDs env u).filterMap fun ou => computeSimilarity env u ou)
    rw [hsort] at hlen
    exact List.length_eq_zero.mp hlen.symm

/-- Witness environment for C10: user 2 shares the target's only like,
so a qualifying similar user (score 0.35) exists. -/
def envW10 : Env :=
  { allLikes := [⟨1, 1⟩, ⟨2, 1⟩]
    allViews := []
    allPurchases := []
    catalog := fun _ => none }

theorem claim10_witness :
    GetSimilarUsers envW10 1 0 = some [] ∧ GetSimilarUsers envW10 1 (-1) = none := by
  have h1 : otherUserIDs envW10 1 = [2] := by decide
  have h2 : computeSimilarity envW10 1 2 = some ⟨2, 7/20, 1, 0⟩ := by
    unfold computeSimilarity combinedSimilarity
    norm_num [productsOf, collectSet, pushUnique, commonCount, jaccardList, envW10]
  have hne : ((otherUserIDs envW10 1).filterMap fun ou => computeSimilarity envW10 1 ou) ≠ [] := by
    rw [h1]
    simp [h2]
  obtain ⟨h0, hneg⟩ := claim10_no_limit_clamping envW10 1 hne
  exact ⟨h0, hneg (-1) (by norm_num)⟩

/-! ### Association-list and aggregation lemmas -/

theorem alookup_append {α : Type} (m m' : List (Int × α)) (pid : Int) :
    alookup (m ++ m') pid = ((alookup m pid).rec (alookup m' pid) fun v => some v) := by
  induction m with
  | nil => rfl
  | cons kv rest ih =>
    obtain ⟨k, v⟩ := kv
    by_cases hk : k = pid
    · simp [alookup, hk]
    · simp [alookup, hk, ih]

theorem alookup_bumpScore_ne {m : List (Int × ℚ)} {q pid : Int} (d : ℚ) (h : q ≠ pid) :
    alookup (bumpScore m q d) pid = alookup m pid := by
  induction m with
  | nil => simp [bumpScore, alookup, h]
  | cons kv rest ih =>
    obtain ⟨k, v⟩ := kv
    unfold bumpScore
    by_cases hk : k = q
    · subst hk
      rw [if_pos rfl]
      simp only [alookup, if_neg h]
    · rw [if_neg hk]
      simp only [alookup]
      by_cases hp : k = pid
      · rw [if_pos hp, if_pos hp]
      · rw [if_neg hp, if_neg hp, ih]

theorem alookup_eq_none_iff {α : Type} {m : List (Int × α)} {pid : Int} :
    alookup m pid = none ↔ ∀ kv ∈ m, kv.1 ≠ pid := by
  induction m with
  | nil => simp [alookup]
  | cons kv rest ih =>
    obtain ⟨k, v⟩ := kv
    by_cases hk : k = pid
    · simp [alookup, hk]
    · simp [alookup, hk, ih]

theorem scoreEvent_skip_lookup {env : Env} {skip : Int → Bool} {w c : ℚ} {st : AggState}
    {pid : Int} (q : Int) (hskip : skip pid = true) :
    alookup (scoreEvent env skip w c st q).productScores pid = alookup st.productScores pid := by
  unfold scoreEvent
  by_cases hq : q = pid
  · subst hq
    rw [if_pos hskip]
  · by_cases hsq : skip q = true
    · rw [if_pos hsq]
    · rw [if_neg hsq]
      cases hdet : alookup st.productDetails q with
      | some p => simp [alookup_bumpScore_ne _ hq]
      | none =>
        cases hcat : env.catalog q with
        | none => simp
        | some product => simp [alookup_bumpScore_ne _ hq]

theorem foldl_preserve {σ α : Type} {P : σ → Prop} {f : σ → α → σ}
    (hf : ∀ s a, P s → P (f s a)) : ∀ (l : List α) (s : σ), P s → P (l.foldl f s) := by
  intro l
  induction l with
  | nil => intro s hs; exact hs
  | cons a l ih =>
    intro s hs
    exact ih _ (hf s a hs)

theorem aggregatePass_skip_lookup {env : Env} {events : List Interaction} {skip : Int → Bool}
    {w : ℚ} {sims : List UserSimilarity} {st : AggState} {pid : Int} (hskip : skip pid = true) :
    alookup (aggregatePass env events skip w sims st).productScores pid
      = alookup st.productScores pid := by
  unfold aggregatePass
  refine foldl_preserve
    (P := fun x => alookup x.productScores pid = alookup st.productScores pid) ?_ sims st rfl
  intro s su hs
  rw [← hs]
  refine foldl_preserve
    (P := fun x => alookup x.productScores pid = alookup s.productScores pid) ?_ events s rfl
  intro s2 ev hs2
  rw [← hs2]
  by_cases hev : ev.userID = su.userID
  · rw [if_pos hev]
    exact scoreEvent_skip_lookup _ hskip
  · rw [if_neg hev]

theorem scoreEvent_details_sound {env : Env} {skip : Int → Bool} {w c : ℚ} {st : AggState}
    (q : Int)
    (hst : ∀ p product, alookup st.productDetails p = some product → env.catalog p = some product) :
    ∀ p product, alookup (scoreEvent env skip w c st q).productDetails p = some product →
      env.catalog p = some product := by
  unfold scoreEvent
  by_cases hsq : skip q = true
  · rw [if_pos hsq]
    exact hst
  · rw [if_neg hsq]
    cases hdet : alookup st.productDetails q with
    | some pr => exact hst
    | none =>
      cases hcat : env.catalog q with
      | none => exact hst
      | some product =>
        intro p pr hp
        simp only at hp
        rw [alookup_append] at hp
        cases hdl : alookup st.productDetails p with
        | some v =>
          rw [hdl] at hp
          exact hp ▸ hst p v hdl
        | none =>
          rw [hdl] at hp
          simp only [alookup] at hp
          by_cases hqp : q = p
          · rw [if_pos hqp] at hp
            cases hp
            exact hqp ▸ hcat
          · rw [if_neg hqp] at hp
            cases hp

theorem aggregatePass_details_sound {env : Env} {events : List Interaction} {skip : Int → Bool}
    {w : ℚ} {sims : List UserSimilarity} {st : AggState}
    (hst : ∀ p product, alookup st.productDetails p = some product → env.catalog p = some product) :
    ∀ p product, alookup (aggregatePass env events skip w sims st).productDetails p = some product →
      env.catalog p = some product := by
  unfold aggregatePass
  refine foldl_preserve
    (P := fun x => ∀ p product, alookup x.productDetails p = some product →
      env.catalog p = some product) ?_ sims st hst
  intro s su hs
  refine foldl_preserve
    (P := fun x => ∀ p product, alookup x.productDetails p = some product →
      env.catalog p = some product) ?_ events s hs
  intro s2 ev hs2
  by_cases hev : ev.userID = su.userID
  · rw [if_pos hev]
    exact scoreEvent_details_sound _ hs2
  · rw [if_neg hev]
    exact hs2

theorem aggState_details_sound (env : Env) (u : Int) (sims : List UserSimilarity) :
    ∀ p product, alookup (aggState env u sims).productDetails p = some product →
      env.catalog p = some product := by
  unfold aggState
  apply aggregatePass_details_sound
  apply aggregatePass_details_sound
  intro p product hp
  cases hp

theorem mem_toRecommendations {st : AggState} {item : ProductRecommendation}
    (h : item ∈ toRecommendations st) :
    ∃ ps ∈ st.productScores, ∃ product, alookup st.productDetails ps.1 = some product ∧
      item.productID = ps.1 ∧ item.score = ps.2 := by
  unfold toRecommendations at h
  obtain ⟨ps, hps, hmap⟩ := List.mem_filterMap.mp h
  cases hdet : alookup st.productDetails ps.1 with
  | none =>
    rw [hdet] at hmap
    cases hmap
  | some product =>
    rw [hdet] at hmap
    simp only [Option.map_some'] at hmap
    injection hmap with hmap
    subst hmap
    exact ⟨ps, hps, product, hdet, rfl, rfl⟩

/-! ### Path analysis for `GetRecommendations` -/

theorem clampLimit_pos (n : Int) : 0 < clampLimit n := by
  unfold clampLimit
  split <;> omega

theorem getSimilarUsers_total (env : Env) (u : Int) {l : Int} (hl : 0 ≤ l) :
    ∃ sims, GetSimilarUsers env u l = some sims := by
  unfold GetSimilarUsers
  exact truncateGo_total _ hl

theorem getPopularProducts_total (env : Env) {limit : Int} (h : 0 ≤ limit) :
    ∃ resp, getPopularProducts env limit = some resp := by
  unfold getPopularProducts popularSelection
  obtain ⟨sel, hsel⟩ := truncateGo_total (sortByDesc (fun pc => pc.2) (likeCounts env)) h
  rw [hsel]
  exact ⟨_, rfl⟩

theorem getPopularProducts_elim {env : Env} {limit : Int} {resp : RecommendationResponse}
    (h : getPopularProducts env limit = some resp) :
    ∃ sel, popularSelection env limit = some sel ∧
      resp = ⟨0,
        sel.filterMap (fun pc => (env.catalog pc.1).map fun product =>
          ⟨pc.1, product.name, product.categoryID.getD 0, product.price,
            (pc.2 : ℚ) / (selMax sel : ℚ),
            "Popular choice - " ++ toString pc.2 ++ " users liked this"⟩),
        "popularity_based"⟩ := by
  unfold getPopularProducts at h
  cases hsel : popularSelection env limit with
  | none =>
    rw [hsel] at h
    cases h
  | some sel =>
    rw [hsel] at h
    injection h with h
    exact ⟨sel, rfl, h.symm⟩

theorem getRecommendations_cases (env : Env) (u n : Int) :
    GetRecommendations env u n = getPopularProducts env (clampLimit n) ∨
    ∃ simUsers recs,
      GetSimilarUsers env u 10 = some simUsers ∧
      truncateGo (sortByDesc (fun r => r.score) (toRecommendations (aggState env u simUsers)))
        (clampLimit n) = some recs ∧
      recs ≠ [] ∧
      GetRecommendations env u n = some ⟨u, recs, "collaborative_filtering"⟩ := by
  by_cases hempty : productsOf env.allLikes u = [] ∧ productsOf env.allViews u = [] ∧
      productsOf env.allPurchases u = []
  · left
    simp only [GetRecommendations]
    rw [if_pos hempty]
  · simp only [GetRecommendations]
    rw [if_neg hempty]
    split
    · rename_i heq
      obtain ⟨sims, hsims⟩ := getSimilarUsers_total env u (by norm_num : (0 : Int) ≤ 10)
      rw [heq] at hsims
      cases hsims
    · rename_i simUsers heq
      by_cases hemp : simUsers = []
      · rw [if_pos hemp]
        exact Or.inl rfl
      · rw [if_neg hemp]
        split
        · rename_i htr
          obtain ⟨recs, hrecs⟩ := truncateGo_total
            (sortByDesc (fun r => r.score) (toRecommendations (aggState env u simUsers)))
            (le_of_lt (clampLimit_pos n))
          rw [htr] at hrecs
          cases hrecs
        · rename_i recs htr
          by_cases hrecemp : recs = []
          · rw [if_pos hrecemp]
            exact Or.inl rfl
          · rw [if_neg hrecemp]
            exact Or.inr ⟨simUsers, recs, heq, htr, hrecemp, rfl⟩

theorem getRecommendations_total (env : Env) (u n : Int) :
    ∃ resp, GetRecommendations env u n = some resp := by
  rcases getRecommendations_cases env u n with h | ⟨_, recs, _, _, _, h⟩
  · obtain ⟨resp, hp⟩ := getPopularProducts_total env (le_of_lt (clampLimit_pos n))
    exact ⟨resp, h.trans hp⟩
  · exact ⟨_, h⟩

/-- C6: a product the target user already purchased never appears in the
collaborative-filtering output of `GetRecommendations`: any aggregation
pass whose skip predicate covers a product leaves that product's score
entry untouched, and both the purchase pass and the like pass skip
products the target purchased (the like pass also skips products the
target liked). -/
theorem claim6_purchased_excluded :
    (∀ (env : Env) (events : List Interaction) (skip : Int → Bool) (w : ℚ)
      (sims : List UserSimilarity) (st : AggState) (pid : Int), skip pid = true →
      alookup (aggregatePass env events skip w sims st).productScores pid
        = alookup st.productScores pid) ∧
    (∀ (env : Env) (u n pid : Int) (resp : RecommendationResponse),
      pid ∈ productsOf env.allPurchases u →
      GetRecommendations env u n = some resp →
      resp.algorithm = "collaborative_filtering" →
      ∀ item ∈ resp.recommendations, item.productID ≠ pid) := by
  constructor
  · intro env events skip w sims st pid hskip
    exact aggregatePass_skip_lookup hskip
  · intro env u n pid resp hp h halg
    rcases getRecommendations_cases env u n with hc | ⟨simUsers, recs, hgs, htr, hne, hc⟩
    · rw [hc] at h
      obtain ⟨sel, _, hresp⟩ := getPopularProducts_elim h
      subst hresp
      have hne2 : ¬ ("popularity_based" = "collaborative_filtering") := by decide
      exact absurd halg hne2
    · rw [hc] at h
      injection h with h
      subst h
      intro item hitem heq
      have hmem : item ∈ toRecommendations (aggState env u simUsers) := by
        have h1 := truncateGo_mem htr item hitem
        rwa [sortByDesc_mem] at h1
      obtain ⟨ps, hps, product, hdet, hpid, _⟩ := mem_toRecommendations hmem
      have hpurch : decide (pid ∈ productsOf env.allPurchases u) = true := decide_eq_true hp
      have hlike : (decide (pid ∈ productsOf env.allLikes u)
          || decide (pid ∈ productsOf env.allPurchases u)) = true := by
        rw [hpurch, Bool.or_true]
      have hnone : alookup (aggState env u simUsers).productScores pid = none := by
        unfold aggState
        rw [aggregatePass_skip_lookup hlike, aggregatePass_skip_lookup hpurch]
        rfl
      rw [alookup_eq_none_iff] at hnone
      exact hnone ps hps (by rw [← hpid, heq])

/-- C7: the recommendation list of `GetRecommendations` never exceeds
the clamped limit, and a limit that is ≤ 0 or > 50 is silently coerced
to the default 10 (a response is produced for every limit, never an
error). -/
theorem claim7_limit_clamp :
    (∀ (env : Env) (u n : Int), ∃ resp, GetRecommendations env u n = some resp ∧
      resp.recommendations.length ≤ (clampLimit n).toNat) ∧
    (∀ n : Int, n ≤ 0 ∨ 50 < n → clampLimit n = 10) := by
  constructor
  · intro env u n
    rcases getRecommendations_cases env u n with hc | ⟨simUsers, recs, hgs, htr, hne, hc⟩
    · obtain ⟨resp, hp⟩ := getPopularProducts_total env (le_of_lt (clampLimit_pos n))
      refine ⟨resp, hc.trans hp, ?_⟩
      obtain ⟨sel, hsel, hresp⟩ := getPopularProducts_elim hp
      subst hresp
      unfold popularSelection at hsel
      calc (sel.filterMap _).length ≤ sel.length := List.length_filterMap_le _ _
        _ ≤ (clampLimit n).toNat :=
          truncateGo_length (le_of_lt (clampLimit_pos n)) hsel
    · refine ⟨_, hc, ?_⟩
      exact truncateGo_length (le_of_lt (clampLimit_pos n)) htr
  · intro n hn
    unfold clampLimit
    rw [if_pos hn]

/-- C8: when the catalog lookup for a product fails, `GetRecommendations`
still returns a response (no error) and the missing product is absent
from the output — on the collaborative-filtering path the skipped events
contribute no score entry the conversion loop could use, and the
popularity path drops the product when building the list. -/
theorem claim8_missing_product (env : Env) (u n pid : Int) (hcat : env.catalog pid = none) :
    ∃ resp, GetRecommendations env u n = some resp ∧
      ∀ item ∈ resp.recommendations, item.productID ≠ pid := by
  rcases getRecommendations_cases env u n with hc | ⟨simUsers, recs, hgs, htr, hne, hc⟩
  · obtain ⟨resp, hp⟩ := getPopularProducts_total env (le_of_lt (clampLimit_pos n))
    refine ⟨resp, hc.trans hp, ?_⟩
    intro item hitem heq
    obtain ⟨sel, hsel, hresp⟩ := getPopularProducts_elim hp
    subst hresp
    obtain ⟨pc, hpc, hmap⟩ := List.mem_filterMap.mp hitem
    cases hcp : env.catalog pc.1 with
    | none =>
      rw [hcp] at hmap
      cases hmap
    | some product =>
      rw [hcp] at hmap
      simp only [Option.map_some'] at hmap
      injection hmap with hmap
      subst hmap
      have hpc1 : pc.1 = pid := heq
      rw [hpc1, hcat] at hcp
      cases hcp
  · refine ⟨_, hc, ?_⟩
    intro item hitem heq
    have hmem : item ∈ toRecommendations (aggState env u simUsers) := by
      have h1 := truncateGo_mem htr item hitem
      rwa [sortByDesc_mem] at h1
    obtain ⟨ps, hps, product, hdet, hpid, _⟩ := mem_toRecommendations hmem
    have hsound := aggState_details_sound env u simUsers ps.1 product hdet
    rw [← hpid, heq, hcat] at hsound
    cases hsound

/-- C9: a response produced by the popularity fallback carries
`UserID = 0`, while the collaborative-filtering path echoes the
requested user id. -/
theorem claim9_fallback_user_id (env : Env) (u n : Int) (resp : RecommendationResponse)
    (h : GetRecommendations env u n = some resp) :
    (resp.algorithm = "popularity_based" → resp.userID = 0) ∧
    (resp.algorithm = "collaborative_filtering" → resp.userID = u) := by
  rcases getRecommendations_cases env u n with hc | ⟨simUsers, recs, hgs, htr, hne, hc⟩
  · rw [hc] at h
    obtain ⟨sel, _, hresp⟩ := getPopularProducts_elim h
    subst hresp
    have hne2 : ¬ ("popularity_based" = "collaborative_filtering") := by decide
    exact ⟨fun _ => rfl, fun hco => absurd hco hne2⟩
  · rw [hc] at h
    injection h with h
    subst h
    have hne2 : ¬ ("collaborative_filtering" = "popularity_based") := by decide
    refine ⟨fun hpo => ?_, fun _ => rfl⟩
    have hpo2 : "collaborative_filtering" = "popularity_based" := hpo
    exact absurd hpo2 hne2

/-- Witness environment for C6: the target purchased product 101; user 2
purchased products 101 and 102. -/
def envW6 : Env :=
  { allLikes := []
    allViews := []
    allPurchases := [⟨1, 101⟩, ⟨2, 101⟩, ⟨2, 102⟩]
    catalog := fun pid => if pid = 101 then some ⟨101, "P1", none, 7⟩
      else if pid = 102 then some ⟨102, "P2", none, 10⟩ else none }

/-- The single recommendation produced in the C6 witness run. -/
def recW6 : ProductRecommendation :=
  ⟨102, "P2", 0, 10, 3/4, "Users with similar interests liked this"⟩

theorem claim6_witness :
    (101 : Int) ∈ productsOf envW6.allPurchases 1 ∧
    GetRecommendations envW6 1 10 = some ⟨1, [recW6], "collaborative_filtering"⟩ ∧
    recW6.productID ≠ 101 := by
  have hp : (101 : Int) ∈ productsOf envW6.allPurchases 1 := by decide
  have h1 : otherUserIDs envW6 1 = [2] := by decide
  have h2 : computeSimilarity envW6 1 2 = some ⟨2, 1/4, 0, 0⟩ := by
    unfold computeSimilarity combinedSimilarity
    norm_num [productsOf, collectSet, pushUnique, commonCount, jaccardList, envW6]
  have hgs : GetSimilarUsers envW6 1 10 = some [⟨2, 1/4, 0, 0⟩] := by
    unfold GetSimilarUsers
    rw [h1]
    simp only [List.filterMap_cons, List.filterMap_nil, h2]
    rfl
  have hresp : GetRecommendations envW6 1 10 = some ⟨1, [recW6], "collaborative_filtering"⟩ := by
    unfold GetRecommendations
    rw [hgs]
    norm_num [clampLimit, aggState, aggregatePass, scoreEvent, alookup, bumpScore,
      toRecommendations, truncateGo, sortByDesc, List.insertionSort, productsOf, collectSet,
      pushUnique, recW6, envW6]
  refine ⟨hp, hresp, ?_⟩
  exact claim6_purchased_excluded.2 envW6 1 10 101 _ hp hresp rfl recW6 (List.mem_singleton_self _)

/-- Witness environment for C7: no events at all. -/
def envW7 : Env :=
  { allLikes := [], allViews := [], allPurchases := [], catalog := fun _ => none }

theorem claim7_witness :
    GetRecommendations envW7 3 99 = some ⟨0, [], "popularity_based"⟩ ∧
    (⟨0, [], "popularity_based"⟩ : RecommendationResponse).recommendations.length
      ≤ (clampLimit 99).toNat ∧
    clampLimit 99 = 10 := by
  have hresp : GetRecommendations envW7 3 99 = some ⟨0, [], "popularity_based"⟩ := by
    norm_num [GetRecommendations, getPopularProducts, popularSelection, likeCounts, truncateGo,
      sortByDesc, List.insertionSort, selMax, productsOf, collectSet, clampLimit, envW7]
  obtain ⟨resp, hr1, hr2⟩ := claim7_limit_clamp.1 envW7 3 99
  rw [hresp] at hr1
  injection hr1 with hr1
  rw [← hr1] at hr2
  exact ⟨hresp, hr2, claim7_limit_clamp.2 99 (by norm_num)⟩

/-- Witness environment for C8: product 60 was liked by user 2 but is
missing from the catalog; product 50 is liked by both users. -/
def envW8 : Env :=
  { allLikes := [⟨1, 50⟩, ⟨2, 50⟩, ⟨2, 60⟩]
    allViews := []
    allPurchases := []
    catalog := fun pid => if pid = 50 then some ⟨50, "A", none, 3⟩ else none }

/-- The single recommendation produced in the C8 witness run. -/
def recW8 : ProductRecommendation :=
  ⟨50, "A", 0, 3, 1, "Popular choice - 2 users liked this"⟩

theorem claim8_witness :
    envW8.catalog 60 = none ∧
    GetRecommendations envW8 1 10 = some ⟨0, [recW8], "popularity_based"⟩ ∧
    recW8.productID ≠ 60 := by
  have hcat : envW8.catalog 60 = none := rfl
  have h1 : otherUserIDs envW8 1 = [2] := by decide
  have h2 : computeSimilarity envW8 1 2 = some ⟨2, 7/40, 1, 0⟩ := by
    unfold computeSimilarity combinedSimilarity
    norm_num [productsOf, collectSet, pushUnique, commonCount, jaccardList, envW8]
  have hgs : GetSimilarUsers envW8 1 10 = some [⟨2, 7/40, 1, 0⟩] := by
    unfold GetSimilarUsers
    rw [h1]
    simp only [List.filterMap_cons, List.filterMap_nil, h2]
    rfl
  have hcnt : likeCounts envW8 = [(50, 2), (60, 1)] := by decide
  have hts : toString (2 : Nat) = "2" := rfl
  have hresp : GetRecommendations envW8 1 10 = some ⟨0, [recW8], "popularity_based"⟩ := by
    unfold GetRecommendations getPopularProducts popularSelection
    rw [hgs, hcnt]
    norm_num [clampLimit, aggState, aggregatePass, scoreEvent, alookup, bumpScore,
      toRecommendations, truncateGo, sortByDesc, List.insertionSort, List.orderedInsert, selMax,
      productsOf, collectSet, pushUnique, recW8, envW8, hts, List.filterMap_cons,
      List.filterMap_nil]
    rfl
  obtain ⟨resp, hr1, hr2⟩ := claim8_missing_product envW8 1 10 60 hcat
  rw [hresp] at hr1
  injection hr1 with hr1
  rw [← hr1] at hr2
  exact ⟨hcat, hresp, hr2 recW8 (List.mem_singleton_self _)⟩

/-- Witness environment for C9: no events at all. -/
def envW9 : Env :=
  { allLikes := [], allViews := [], allPurchases := [], catalog := fun _ => none }

theorem claim9_witness :
    GetRecommendations envW9 7 5 = some ⟨0, [], "popularity_based"⟩ ∧
    (⟨0, [], "popularity_based"⟩ : RecommendationResponse).userID = 0 := by
  have hresp : GetRecommendations envW9 7 5 = some ⟨0, [], "popularity_based"⟩ := by
    norm_num [GetRecommendations, getPopularProducts, popularSelection, likeCounts, truncateGo,
      sortByDesc, List.insertionSort, selMax, productsOf, collectSet, clampLimit, envW9]
  exact ⟨hresp, (claim9_fallback_user_id envW9 7 5 _ hresp).1 rfl⟩

/-! ### Like-count lemmas for the popularity fallback -/

/-- The number of like events recorded for a product (across all
users). -/
def likeCountOf (env : Env) (pid : Int) : Nat :=
  (env.allLikes.filter fun e => decide (e.productID = pid)).length

theorem mem_keys_bumpCount {m : List (Int × Nat)} {q p : Int} :
    p ∈ (bumpCount m q).map Prod.fst ↔ p ∈ m.map Prod.fst ∨ p = q := by
  induction m with
  | nil => simp [bumpCount]
  | cons kv rest ih =>
    obtain ⟨k, c⟩ := kv
    unfold bumpCount
    by_cases hk : k = q
    · subst hk
      rw [if_pos rfl]
      simp only [List.map_cons, List.mem_cons]
      tauto
    · rw [if_neg hk]
      simp only [List.map_cons, List.mem_cons, ih]
      tauto

theorem keys_bumpCount {m : List (Int × Nat)} (q : Int)
    (h : (m.map Prod.fst).Nodup) : ((bumpCount m q).map Prod.fst).Nodup := by
  induction m with
  | nil => simp [bumpCount]
  | cons kv rest ih =>
    obtain ⟨k, c⟩ := kv
    unfold bumpCount
    by_cases hk : k = q
    · rw [if_pos hk]
      simpa using h
    · rw [if_neg hk]
      simp only [List.map_cons, List.nodup_cons] at h ⊢
      refine ⟨?_, ih h.2⟩
      intro hmem
      rcases mem_keys_bumpCount.mp hmem with hmem | hmem
      · exact h.1 hmem
      · exact hk hmem

theorem pos_bumpCount {m : List (Int × Nat)} (q : Int)
    (h : ∀ pc ∈ m, 1 ≤ pc.2) : ∀ pc ∈ bumpCount m q, 1 ≤ pc.2 := by
  induction m with
  | nil =>
    intro pc hpc
    simp only [bumpCount, List.mem_singleton] at hpc
    subst hpc
    exact le_refl 1
  | cons kv rest ih =>
    obtain ⟨k, c⟩ := kv
    unfold bumpCount
    by_cases hk : k = q
    · rw [if_pos hk]
      intro pc hpc
      rcases List.mem_cons.mp hpc with rfl | hpc
      · have hkc := h (k, c) (List.mem_cons_self _ _)
        simp only []
        exact Nat.le_succ_of_le hkc
      · exact h pc (List.mem_cons_of_mem _ hpc)
    · rw [if_neg hk]
      intro pc hpc
      rcases List.mem_cons.mp hpc with rfl | hpc
      · exact h (k, c) (List.mem_cons_self _ _)
      · exact ih (fun x hx => h x (List.mem_cons_of_mem _ hx)) pc hpc

theorem alookup_bumpCount {m : List (Int × Nat)} (q pid : Int) :
    (alookup (bumpCount m q) pid).getD 0
      = (alookup m pid).getD 0 + (if q = pid then 1 else 0) := by
  induction m with
  | nil =>
    by_cases h : q = pid <;> simp [bumpCount, alookup, h]
  | cons kv rest ih =>
    obtain ⟨k, c⟩ := kv
    unfold bumpCount
    by_cases hk : k = q
    · subst hk
      rw [if_pos rfl]
      by_cases hp : k = pid
      · simp [alookup, hp]
      · simp [alookup, hp, fun hq => hp (hq : k = pid)]
    · rw [if_neg hk]
      simp only [alookup]
      by_cases hp : k = pid
      · rw [if_pos hp, if_pos hp, if_neg (fun hq : q = pid => hk (hp.trans hq.symm))]
        simp
      · rw [if_neg hp, if_neg hp, ih]

theorem alookup_foldl_bumpCount (events : List Interaction) :
    ∀ (m : List (Int × Nat)) (pid : Int),
      (alookup (events.foldl (fun m e => bumpCount m e.productID) m) pid).getD 0
        = (alookup m pid).getD 0
          + (events.filter fun e => decide (e.productID = pid)).length := by
  induction events with
  | nil => simp
  | cons e rest ih =>
    intro m pid
    rw [List.foldl_cons, ih, alookup_bumpCount, List.filter_cons]
    by_cases he : e.productID = pid
    · rw [if_pos he, if_pos (decide_eq_true he), List.length_cons]
      omega
    · rw [if_neg he, if_neg (by simp [he] : ¬ decide (e.productID = pid) = true)]
      simp

theorem alookup_of_mem {α : Type} {m : List (Int × α)} (hnd : (m.map Prod.fst).Nodup)
    {pc : Int × α} (h : pc ∈ m) : alookup m pc.1 = some pc.2 := by
  induction m with
  | nil => cases h
  | cons kv rest ih =>
    obtain ⟨k, v⟩ := kv
    simp only [List.map_cons, List.nodup_cons] at hnd
    rcases List.mem_cons.mp h with rfl | h
    · simp [alookup]
    · unfold alookup
      rw [if_neg ?_, ih hnd.2 h]
      intro hkp
      exact hnd.1 (hkp ▸ List.mem_map_of_mem Prod.fst h)

theorem likeCounts_count (env : Env) (pid : Int) :
    (alookup (likeCounts env) pid).getD 0 = likeCountOf env pid := by
  unfold likeCounts likeCountOf
  have h := alookup_foldl_bumpCount env.allLikes [] pid
  simpa [alookup] using h

theorem keys_likeCounts (env : Env) : ((likeCounts env).map Prod.fst).Nodup := by
  unfold likeCounts
  refine foldl_preserve (P := fun m => (List.map Prod.fst m).Nodup) ?_ env.allLikes [] (by simp)
  intro m e hm
  exact keys_bumpCount _ hm

theorem pos_likeCounts (env : Env) : ∀ pc ∈ likeCounts env, 1 ≤ pc.2 := by
  unfold likeCounts
  refine foldl_preserve (P := fun m : List (Int × Nat) => ∀ pc ∈ m, 1 ≤ pc.2) ?_
    env.allLikes [] (by simp)
  intro m e hm
  exact pos_bumpCount _ hm

theorem mem_likeCounts {env : Env} {pc : Int × Nat} (h : pc ∈ likeCounts env) :
    pc.2 = likeCountOf env pc.1 ∧ 1 ≤ pc.2 := by
  have ha := alookup_of_mem (keys_likeCounts env) h
  have hc := likeCounts_count env pc.1
  rw [ha] at hc
  exact ⟨by simp at hc; exact hc, pos_likeCounts env pc h⟩

theorem pairwise_filterMap_of {α β : Type} {R : α → α → Prop} {S : β → β → Prop}
    (f : α → Option β)
    (hf : ∀ a b x y, R a b → f a = some x → f b = some y → S x y) :
    ∀ {l : List α}, l.Pairwise R → (l.filterMap f).Pairwise S := by
  intro l hl
  induction hl with
  | nil => simp
  | @cons a l' hr hp ih =>
    rw [List.filterMap_cons]
    cases hfa : f a with
    | none => exact ih
    | some x =>
      refine List.Pairwise.cons ?_ ih
      intro y hy
      obtain ⟨b, hb, hfb⟩ := List.mem_filterMap.mp hy
      exact hf a b x y (hr b hb) hfa hfb

theorem div_cast_le_div_cast {x y m : Nat} (h : x ≤ y) : (x : ℚ) / (m : ℚ) ≤ (y : ℚ) / (m : ℚ) := by
  rcases Nat.eq_zero_or_pos m with hm | hm
  · simp [hm]
  · have hm2 : (0 : ℚ) < (m : ℚ) := by exact_mod_cast hm
    rw [div_le_div_iff_of_pos_right hm2]
    exact_mod_cast h

theorem selMax_ge {sel : List (Int × Nat)} (hp : sel.Pairwise fun a b => b.2 ≤ a.2) :
    ∀ pc ∈ sel, pc.2 ≤ selMax sel := by
  cases sel with
  | nil => intro pc hpc; cases hpc
  | cons hd tl =>
    intro pc hpc
    rcases List.mem_cons.mp hpc with rfl | hpc
    · exact le_refl _
    · exact (List.pairwise_cons.mp hp).1 pc hpc

/-- C3 (amended): for a user with zero interaction events of all three
types, `GetRecommendations` returns the popularity fallback: a response
tagged `popularity_based` whose list has at most the clamped limit many
items (10 when the requested limit is out of (0, 50]) and is sorted by
descending score; each item's score is its like count divided by the
like count of the first (most-liked) entry of the truncated selection,
which is computed before catalog filtering — so the top item scores
exactly 1.0 whenever the list is non-empty and that most-liked selected
product exists in the catalog; each reason string embeds the item's
literal like count; and with zero likes system-wide the list is empty
and no error is returned. -/
theorem claim3_popularity_fallback (env : Env) (u n : Int) (resp : RecommendationResponse)
    (hL : productsOf env.allLikes u = []) (hV : productsOf env.allViews u = [])
    (hP : productsOf env.allPurchases u = [])
    (h : GetRecommendations env u n = some resp) :
    resp.algorithm = "popularity_based" ∧
    resp.recommendations.length ≤ (clampLimit n).toNat ∧
    resp.recommendations.Pairwise (fun a b => b.score ≤ a.score) ∧
    (∃ sel, popularSelection env (clampLimit n) = some sel ∧
      (∀ item ∈ resp.recommendations,
        item.score = (likeCountOf env item.productID : ℚ) / (selMax sel : ℚ) ∧
        item.reason = "Popular choice - " ++ toString (likeCountOf env item.productID)
          ++ " users liked this") ∧
      (∀ p c rest, sel = (p, c) :: rest → (∃ product, env.catalog p = some product) →
        ∃ r rs, resp.recommendations = r :: rs ∧ r.score = 1)) ∧
    (env.allLikes = [] → resp.recommendations = []) := by
  have hpop : GetRecommendations env u n = getPopularProducts env (clampLimit n) := by
    simp only [GetRecommendations]
    rw [if_pos ⟨hL, hV, hP⟩]
  rw [hpop] at h
  obtain ⟨sel, hsel, hresp⟩ := getPopularProducts_elim h
  subst hresp
  have hselsub : ∀ pc ∈ sel, pc ∈ likeCounts env := by
    intro pc hpc
    have h1 := truncateGo_mem hsel pc hpc
    rwa [sortByDesc_mem] at h1
  have hpair : sel.Pairwise fun a b => b.2 ≤ a.2 :=
    truncateGo_pairwise (sortByDesc_pairwise (fun pc => pc.2) (likeCounts env)) hsel
  refine ⟨rfl, ?_, ?_, ⟨sel, hsel, ?_, ?_⟩, ?_⟩
  · calc (sel.filterMap _).length ≤ sel.length := List.length_filterMap_le _ _
      _ ≤ (clampLimit n).toNat := by
        unfold popularSelection at hsel
        exact truncateGo_length (le_of_lt (clampLimit_pos n)) hsel
  · refine pairwise_filterMap_of _ ?_ hpair
    intro a b x y hab hfa hfb
    cases hca : env.catalog a.1 with
    | none =>
      rw [hca] at hfa
      cases hfa
    | some pa =>
      rw [hca] at hfa
      simp only [Option.map_some'] at hfa
      cases hcb : env.catalog b.1 with
      | none =>
        rw [hcb] at hfb
        cases hfb
      | some pb =>
        rw [hcb] at hfb
        simp only [Option.map_some'] at hfb
        injection hfa with hfa
        injection hfb with hfb
        subst hfa
        subst hfb
        exact div_cast_le_div_cast hab
  · intro item hitem
    obtain ⟨pc, hpc, hmap⟩ := List.mem_filterMap.mp hitem
    cases hcp : env.catalog pc.1 with
    | none =>
      rw [hcp] at hmap
      cases hmap
    | some product =>
      rw [hcp] at hmap
      simp only [Option.map_some'] at hmap
      injection hmap with hmap
      subst hmap
      have hcount := (mem_likeCounts (hselsub pc hpc)).1
      constructor
      · simp only []
        rw [← hcount]
      · simp only []
        rw [← hcount]
  · intro p c rest hselc hcat
    obtain ⟨product, hcatp⟩ := hcat
    subst hselc
    rw [List.filterMap_cons]
    simp only [hcatp, Option.map_some']
    refine ⟨_, _, rfl, ?_⟩
    have hc1 : 1 ≤ c := (mem_likeCounts (hselsub (p, c) (List.mem_cons_self _ _))).2
    simp only [selMax]
    rw [div_self]
    intro hc0
    rw [Nat.cast_eq_zero] at hc0
    omega
  · intro hlikes
    have hcnt : likeCounts env = [] := by
      unfold likeCounts
      rw [hlikes]
      rfl
    have hsel2 : sel = [] := by
      unfold popularSelection at hsel
      rw [hcnt] at hsel
      have : truncateGo (sortByDesc (fun pc => pc.2) ([] : List (Int × Nat))) (clampLimit n)
          = some [] := truncateGo_nil (le_of_lt (clampLimit_pos n))
      rw [this] at hsel
      injection hsel with hsel
      exact hsel.symm
    rw [hsel2]
    rfl

/-- Counterexample environment for C3: product 10 has two likes but was
deleted from the catalog; product 20 has one like and is present. User 5
has no events. -/
def envC3x : Env :=
  { allLikes := [⟨1, 10⟩, ⟨2, 10⟩, ⟨1, 20⟩]
    allViews := []
    allPurchases := []
    catalog := fun pid => if pid = 20 then some ⟨20, "B", none, 5⟩ else none }

/-- The single recommendation of the C3 counterexample run. -/
def recC3x : ProductRecommendation :=
  ⟨20, "B", 0, 5, 1/2, "Popular choice - 1 users liked this"⟩

/-- C3 counterexample: for user 5 (zero events) and requested limit 0,
`GetRecommendations` returns a popularity-based list of length 1 — which
exceeds the raw limit 0 — whose (unique, hence top) item scores 1/2, not
1.0, because the most-liked product (two likes) was deleted from the
catalog while the normalizing maximum still counts it. -/
theorem claim3_counterexample :
    productsOf envC3x.allLikes 5 = [] ∧ productsOf envC3x.allViews 5 = [] ∧
    productsOf envC3x.allPurchases 5 = [] ∧
    GetRecommendations envC3x 5 0 = some ⟨0, [recC3x], "popularity_based"⟩ ∧
    ¬ ((⟨0, [recC3x], "popularity_based"⟩ : RecommendationResponse).recommendations.length ≤ 0) ∧
    recC3x.score = 1/2 ∧ ¬ ((1 : ℚ)/2 = 1) := by
  have hcnt : likeCounts envC3x = [(10, 2), (20, 1)] := by decide
  have hts : toString (1 : Nat) = "1" := rfl
  have hresp : GetRecommendations envC3x 5 0 = some ⟨0, [recC3x], "popularity_based"⟩ := by
    unfold GetRecommendations getPopularProducts popularSelection
    rw [hcnt]
    norm_num [clampLimit, productsOf, collectSet, truncateGo, sortByDesc, List.insertionSort,
      List.orderedInsert, selMax, envC3x, recC3x, List.filterMap_cons, List.filterMap_nil, hts]
    rfl
  exact ⟨by decide, by decide, by decide, hresp, by norm_num, rfl, by norm_num⟩

/-- Witness environment for the amended C3: one like for product 30,
which is present in the catalog; user 5 has no events. -/
def envW3 : Env :=
  { allLikes := [⟨1, 30⟩]
    allViews := []
    allPurchases := []
    catalog := fun pid => if pid = 30 then some ⟨30, "C", none, 2⟩ else none }

/-- The single recommendation of the C3 witness run. -/
def recW3 : ProductRecommendation :=
  ⟨30, "C", 0, 2, 1, "Popular choice - 1 users liked this"⟩

theorem claim3_witness :
    productsOf envW3.allLikes 5 = [] ∧
    GetRecommendations envW3 5 7 = some ⟨0, [recW3], "popularity_based"⟩ ∧
    (⟨0, [recW3], "popularity_based"⟩ : RecommendationResponse).algorithm = "popularity_based" ∧
    (⟨0, [recW3], "popularity_based"⟩ : RecommendationResponse).recommendations.length
      ≤ (clampLimit 7).toNat := by
  have hcnt : likeCounts envW3 = [(30, 1)] := by decide
  have hts : toString (1 : Nat) = "1" := rfl
  have hresp : GetRecommendations envW3 5 7 = some ⟨0, [recW3], "popularity_based"⟩ := by
    unfold GetRecommendations getPopularProducts popularSelection
    rw [hcnt]
    norm_num [clampLimit, productsOf, collectSet, truncateGo, sortByDesc, List.insertionSort,
      List.orderedInsert, selMax, envW3, recW3, List.filterMap_cons, List.filterMap_nil, hts]
    rfl
  obtain ⟨halg, hlen, _⟩ := claim3_popularity_fallback envW3 5 7 _ (by decide) (by decide)
    (by decide) hresp
  exact ⟨by decide, hresp, halg, hlen⟩

/-- The environment of the C2 scenario: the target (user 1) purchased
only P1 (id 101); user 2 purchased P1 and P2 (id 102); both products are
in the catalog. -/
def envC2x : Env :=
  { allLikes := []
    allViews := []
    allPurchases := [⟨1, 101⟩, ⟨2, 101⟩, ⟨2, 102⟩]
    catalog := fun pid => if pid = 101 then some ⟨101, "P1", none, 7⟩
      else if pid = 102 then some ⟨102, "P2", none, 10⟩ else none }

/-- The single recommendation of the C2 scenario run. -/
def recC2x : ProductRecommendation :=
  ⟨102, "P2", 0, 10, 3/4, "Users with similar interests liked this"⟩

/-- C2 counterexample: in the scenario of the claim the purchase Jaccard
is 1/(1+2-1) = 1/2, not 1/1: the other user's combined score is 1/4
(≠ 0.5 as claimed) and P2 is recommended with score 1/4 * 3.0 = 3/4
(≠ 1.5 as claimed). -/
theorem claim2_counterexample :
    GetSimilarUsers envC2x 1 10 = some [⟨2, 1/4, 0, 0⟩] ∧
    ¬ ((1 : ℚ)/4 = 1/2) ∧
    GetRecommendations envC2x 1 10 = some ⟨1, [recC2x], "collaborative_filtering"⟩ ∧
    recC2x.score = 3/4 ∧ ¬ ((3 : ℚ)/4 = 3/2) := by
  have h1 : otherUserIDs envC2x 1 = [2] := by decide
  have h2 : computeSimilarity envC2x 1 2 = some ⟨2, 1/4, 0, 0⟩ := by
    unfold computeSimilarity combinedSimilarity
    norm_num [productsOf, collectSet, pushUnique, commonCount, jaccardList, envC2x]
  have hgs : GetSimilarUsers envC2x 1 10 = some [⟨2, 1/4, 0, 0⟩] := by
    unfold GetSimilarUsers
    rw [h1]
    simp only [List.filterMap_cons, List.filterMap_nil, h2]
    rfl
  have hresp : GetRecommendations envC2x 1 10
      = some ⟨1, [recC2x], "collaborative_filtering"⟩ := by
    unfold GetRecommendations
    rw [hgs]
    norm_num [clampLimit, aggState, aggregatePass, scoreEvent, alookup, bumpScore,
      toRecommendations, truncateGo, sortByDesc, List.insertionSort, productsOf, collectSet,
      pushUnique, recC2x, envC2x]
  exact ⟨hgs, by norm_num, hresp, rfl, by norm_num⟩

/-- C2 (amended): in the scenario the other user is returned with
purchase-similarity 1/2 and combined score 1/4, and `GetRecommendations`
returns P2 with score 1/4 * 3.0 = 3/4 and does not return P1. -/
theorem claim2_amended_scenario :
    jaccardList (productsOf envC2x.allPurchases 1) (productsOf envC2x.allPurchases 2) = 1/2 ∧
    GetSimilarUsers envC2x 1 10 = some [⟨2, 1/4, 0, 0⟩] ∧
    GetRecommendations envC2x 1 10 = some ⟨1, [recC2x], "collaborative_filtering"⟩ ∧
    recC2x.score = (1/4 : ℚ) * 3.0 ∧
    recC2x.productID ≠ 101 := by
  have hj : jaccardList (productsOf envC2x.allPurchases 1) (productsOf envC2x.allPurchases 2)
      = 1/2 := by
    norm_num [productsOf, collectSet, pushUnique, commonCount, jaccardList, envC2x]
  have h1 : otherUserIDs envC2x 1 = [2] := by decide
  have h2 : computeSimilarity envC2x 1 2 = some ⟨2, 1/4, 0, 0⟩ := by
    unfold computeSimilarity combinedSimilarity
    norm_num [productsOf, collectSet, pushUnique, commonCount, jaccardList, envC2x]
  have hgs : GetSimilarUsers envC2x 1 10 = some [⟨2, 1/4, 0, 0⟩] := by
    unfold GetSimilarUsers
    rw [h1]
    simp only [List.filterMap_cons, List.filterMap_nil, h2]
    rfl
  have hresp : GetRecommendations envC2x 1 10
      = some ⟨1, [recC2x], "collaborative_filtering"⟩ := by
    unfold GetRecommendations
    rw [hgs]
    norm_num [clampLimit, aggState, aggregatePass, scoreEvent, alookup, bumpScore,
      toRecommendations, truncateGo, sortByDesc, List.insertionSort, productsOf, collectSet,
      pushUnique, recC2x, envC2x]
  refine ⟨hj, hgs, hresp, by norm_num [recC2x], by decide⟩
